import Mathlib

/-!
Verification of the position/portfolio reconciliation engine of the
quantum_trader_backend repository.

The Python sources embedded here (shallowly, as pure functions over explicit
state) are:
  * models/portfolio.py   — Position, Portfolio, the enums, calculate_totals,
                            add_position, update_price;
  * core/data_manager.py  — DataManager.update_position,
                            _create_position_from_contract, _format_expiry_date,
                            _remove_closed_position, update_account_value,
                            update_greeks_data, update_market_data (price part);
  * core/ibkr_client.py   — IBKRWrapper.tickOptionComputation (Greeks clamping);
  * services/portfolio_service.py — PortfolioService._update_portfolio_calculations.

Modelling conventions:
  * Python floats are modelled as ℚ (all claims are algebraic relations).
  * Timestamps (created_at / updated_at / last_*_update) carry no portfolio
    content and are dropped.
  * Presentation-only Position fields (strategy, confidence, signal, priority,
    notes, levels) are constants in the code path under study and are dropped.
  * Python dicts are modelled as association lists with insertion-order
    update semantics (update in place keeps the entry position, a new key is
    appended), matching dict iteration order.
  * Exceptions caught by a handler's try/except are modelled by the handler
    returning the unmodified state (Except is used where the raise itself is
    the fact of interest).
-/

namespace QT

/-- Association-list lookup (Python `dict.get`). -/
def alistGet {κ α : Type} [DecidableEq κ] (l : List (κ × α)) (k : κ) : Option α :=
  match l with
  | [] => none
  | (k', v) :: t => if k' = k then some v else alistGet t k

/-- Association-list write (Python `d[k] = v`): updates the first entry with
key `k` in place, appends when absent — matching dict insertion-order. -/
def alistSet {κ α : Type} [DecidableEq κ] (l : List (κ × α)) (k : κ) (v : α) :
    List (κ × α) :=
  match l with
  | [] => [(k, v)]
  | (k', v') :: t => if k' = k then (k, v) :: t else (k', v') :: alistSet t k v

/-- Association-list delete (Python `del d[k]`). -/
def alistRemove {κ α : Type} [DecidableEq κ] (l : List (κ × α)) (k : κ) :
    List (κ × α) :=
  match l with
  | [] => []
  | (k', v) :: t => if k' = k then t else (k', v) :: alistRemove t k

/-- Python `int(x)` on a float: truncation toward zero.  `Int.tdiv` is
t-division (truncates toward zero) and the denominator of a `Rat` is
positive, so this is exact. -/
def pyInt (q : ℚ) : ℚ := ((Int.tdiv q.num q.den : ℤ) : ℚ)

/-- `AccountType` from models/portfolio.py (lines 7-9). -/
inductive AccountType
  | individualTaxable
  | retirementTaxFree
deriving DecidableEq

/-- `PositionType` from models/portfolio.py (lines 11-14).  The enum has
exactly the members STOCK, CALL and PUT; code elsewhere that references
`PositionType.FUTURE` (data_manager.py lines 238 and 345) therefore raises
`AttributeError` at run time. -/
inductive PositionType
  | stock
  | call
  | put
deriving DecidableEq

/-- `Greeks` from models/market_data.py, numeric fields only (the timestamp
is dropped). -/
structure Greeks where
  delta : ℚ
  gamma : ℚ
  theta : ℚ
  vega : ℚ
  rho : ℚ
  implied_volatility : ℚ
deriving DecidableEq

/-- `Position` from models/portfolio.py (lines 31-64), keeping every field
that the reconciliation logic reads or writes. -/
structure Position where
  symbol : String
  account_id : String
  account_type : AccountType
  position_type : PositionType
  quantity : ℚ
  avg_cost : ℚ
  current_price : ℚ
  market_value : ℚ
  unrealized_pnl : ℚ
  realized_pnl : ℚ
  day_pnl : ℚ
  strike_price : Option ℚ
  expiry : Option String
  option_type : Option String
  greeks : Option Greeks
deriving DecidableEq

/-- `Position.__post_init__` (models/portfolio.py lines 66-86), the part that
recomputes `market_value` and `unrealized_pnl` when they arrive as `0`
(timestamp/levels initialisation dropped). -/
def Position.postInit (p : Position) : Position :=
  let mv :=
    if p.market_value = 0 then
      if p.position_type = .stock then p.quantity * p.current_price
      else p.quantity * p.current_price * 100
    else p.market_value
  let upnl :=
    if p.unrealized_pnl = 0 then
      if p.position_type = .stock then (p.current_price - p.avg_cost) * p.quantity
      else (p.current_price - p.avg_cost) * p.quantity * 100
    else p.unrealized_pnl
  { p with market_value := mv, unrealized_pnl := upnl }

/-- `Position.update_price` (models/portfolio.py lines 88-102). -/
def Position.updatePrice (p : Position) (newPrice : ℚ) : Position :=
  let oldMarketValue := p.market_value
  let mv :=
    if p.position_type = .stock then p.quantity * newPrice
    else p.quantity * newPrice * 100
  let upnl :=
    if p.position_type = .stock then (newPrice - p.avg_cost) * p.quantity
    else (newPrice - p.avg_cost) * p.quantity * 100
  { p with current_price := newPrice, market_value := mv, unrealized_pnl := upnl,
           day_pnl := mv - oldMarketValue }

/-- `Portfolio` from models/portfolio.py (lines 119-136), timestamps dropped. -/
structure Portfolio where
  account_id : String
  account_type : AccountType
  positions : List Position
  cash_balance : ℚ
  total_value : ℚ
  day_pnl : ℚ
  total_pnl : ℚ
  buying_power : ℚ
  margin_used : ℚ
  total_pnl_percent : ℚ
  day_pnl_percent : ℚ
deriving DecidableEq

def sumMarketValue (l : List Position) : ℚ := (l.map Position.market_value).sum

def sumDayPnl (l : List Position) : ℚ := (l.map Position.day_pnl).sum

def sumTotalPnl (l : List Position) : ℚ :=
  (l.map (fun p => p.unrealized_pnl + p.realized_pnl)).sum

/-- `Portfolio.calculate_totals` (models/portfolio.py lines 143-157).  Note
the percentage fields are assigned only under the code's `> 0` guards; when a
guard fails the previously stored percentage is left in place. -/
def Portfolio.calculateTotals (pf : Portfolio) : Portfolio :=
  let positionValue := sumMarketValue pf.positions
  let tv := positionValue + pf.cash_balance
  let dp := sumDayPnl pf.positions
  let tp := sumTotalPnl pf.positions
  let dayPct := if 0 < tv then dp / tv * 100 else pf.day_pnl_percent
  let totPct :=
    if 0 < tv ∧ 0 < tv - tp then tp / (tv - tp) * 100 else pf.total_pnl_percent
  { pf with total_value := tv, day_pnl := dp, total_pnl := tp,
            day_pnl_percent := dayPct, total_pnl_percent := totPct }

/-- A fresh `Portfolio(account_id, account_type, positions=[])`; the dataclass
`__post_init__` (lines 138-141) runs `calculate_totals` once. -/
def Portfolio.create (accountId : String) (t : AccountType) : Portfolio :=
  Portfolio.calculateTotals
    { account_id := accountId, account_type := t, positions := [],
      cash_balance := 0, total_value := 0, day_pnl := 0, total_pnl := 0,
      buying_power := 0, margin_used := 0, total_pnl_percent := 0,
      day_pnl_percent := 0 }

/-- The matching test of `Portfolio.add_position` (models/portfolio.py lines
162-166): symbol, strike, expiry and option type. -/
def samePositionKey (a b : Position) : Bool :=
  decide (a.symbol = b.symbol ∧ a.strike_price = b.strike_price ∧
          a.expiry = b.expiry ∧ a.option_type = b.option_type)

/-- The loop of `Portfolio.add_position`: replace the first entry whose key
matches, else append. -/
def replaceOrAppend (l : List Position) (pos : Position) : List Position :=
  match l with
  | [] => [pos]
  | x :: t => if samePositionKey x pos then pos :: t else x :: replaceOrAppend t pos

/-- `Portfolio.add_position` (models/portfolio.py lines 159-173). -/
def Portfolio.addPosition (pf : Portfolio) (pos : Position) : Portfolio :=
  Portfolio.calculateTotals { pf with positions := replaceOrAppend pf.positions pos }

/-- Does `hay` start with `needle` (character lists)? -/
def charsStartWith (needle hay : List Char) : Bool :=
  match needle, hay with
  | [], _ => true
  | _ :: _, [] => false
  | a :: ns, b :: hs => a == b && charsStartWith ns hs

/-- Does `hay` contain `needle` as a contiguous run (character lists)? -/
def charsContain (needle hay : List Char) : Bool :=
  match hay with
  | [] => needle.isEmpty
  | _ :: t => charsStartWith needle hay || charsContain needle t

/-- Python `needle in hay` on strings. -/
def strContains (hay needle : String) : Bool := charsContain needle.data hay.data

/-- Python `str.lower()`, character by character (account ids are ASCII). -/
def strLower (s : String) : String := String.mk (s.data.map Char.toLower)

/-- Python `str.upper()`, character by character (option rights are ASCII). -/
def strUpper (s : String) : String := String.mk (s.data.map Char.toUpper)

/-- The account classification of `DataManager.update_position`
(data_manager.py lines 172-175): retirement/tax-free when the lower-cased
account id contains "retirement" or "ira", else individual taxable. -/
def classifyAccount (accountId : String) : AccountType :=
  if strContains (strLower accountId) "retirement" ||
      strContains (strLower accountId) "ira" then
    .retirementTaxFree
  else .individualTaxable

/-- The IBKR `Contract` fields that the reconciliation code reads.  `none`
models an absent attribute (Python `hasattr` false); an empty string models a
present-but-falsy value. -/
structure Contract where
  symbol : String
  secType : String
  right : Option String
  strike : Option ℚ
  lastTradeDateOrContractMonth : Option String
deriving DecidableEq

/-- The `position_data` dict delivered by `IBKRWrapper.updatePortfolio`
(ibkr_client.py lines 186-205); each numeric field is read with
`.get(key, 0)`, so absent keys are already folded into the `0` default. -/
structure PositionData where
  contract : Contract
  position : ℚ
  average_cost : ℚ
  market_price : ℚ
  market_value : ℚ
  unrealized_pnl : ℚ
  realized_pnl : ℚ
deriving DecidableEq

/-- `hasattr(c, a) and c.a` on an optional string attribute: present and
non-empty. -/
def truthyStr : Option String → Bool
  | none => false
  | some s => !s.isEmpty

/-- `DataManager._format_expiry_date` (data_manager.py lines 294-306):
`YYYYMMDD` becomes `MM/DD/YYYY`, anything else is returned unchanged. -/
def formatExpiryDate (raw : String) : String :=
  if raw.length = 8 ∧ raw.data.all Char.isDigit = true then
    let cs := raw.data
    String.mk ((cs.drop 4).take 2) ++ "/" ++ String.mk ((cs.drop 6).take 2) ++
      "/" ++ String.mk (cs.take 4)
  else raw

/-- `DataManager._create_position_from_contract` (data_manager.py lines
203-292).  The `FUT` branch executes `position_type = PositionType.FUTURE`;
`PositionType` (models/portfolio.py lines 11-14) has no `FUTURE` member, so
that branch raises `AttributeError`, the surrounding `except` catches it and
the function returns `None` — modelled as `none`. -/
def createPositionFromContract (accountId : String) (accountType : AccountType)
    (c : Contract) (pd : PositionData) (marketData : List (String × ℚ)) :
    Option Position :=
  if c.secType = "FUT" then none
  else
    let qty := pd.position
    let isOpt := c.secType = "OPT"
    let rightInfo : PositionType × Option String :=
      if isOpt ∧ truthyStr c.right = true then
        match c.right with
        | some r =>
          if strUpper r = "C" then (.call, some "C")
          else if strUpper r = "P" then (.put, some "P")
          else (.stock, none)
        | none => (.stock, none)
      else (.stock, none)
    let positionType := rightInfo.1
    let optionType := rightInfo.2
    let strikePrice := if isOpt then c.strike else none
    let expiry :=
      if isOpt ∧ truthyStr c.lastTradeDateOrContractMonth = true then
        (c.lastTradeDateOrContractMonth.map formatExpiryDate)
      else none
    let marketPrice :=
      if pd.market_price = 0 then
        match alistGet marketData c.symbol with
        | some p => p
        | none => pd.average_cost
      else pd.market_price
    let marketValue :=
      if pd.market_value = 0 then
        if positionType = .stock then qty * marketPrice
        else qty * marketPrice * 100
      else pd.market_value
    let upnl :=
      if pd.unrealized_pnl = 0 then
        if positionType = .stock then (marketPrice - pd.average_cost) * qty
        else (marketPrice - pd.average_cost) * qty * 100
      else pd.unrealized_pnl
    some (Position.postInit
      { symbol := c.symbol, account_id := accountId, account_type := accountType,
        position_type := positionType, quantity := pyInt qty,
        avg_cost := pd.average_cost, current_price := marketPrice,
        market_value := marketValue, unrealized_pnl := upnl,
        realized_pnl := pd.realized_pnl, day_pnl := 0,
        strike_price := strikePrice, expiry := expiry,
        option_type := optionType, greeks := none })

/-- The mutable `DataManager` state read or written by the reconciliation
paths under study.  `marketData` keeps the `price` field of each
`MarketData` entry — the only field the portfolio logic consumes. -/
structure DMState where
  marketData : List (String × ℚ)
  greeksData : List (String × Greeks)
  portfolios : List (String × Portfolio)
  accountData : List (String × List (String × ℚ))
deriving DecidableEq

def initState : DMState := ⟨[], [], [], []⟩

inductive PyError
  | attributeError
deriving DecidableEq

/-- The body of `DataManager._remove_closed_position` (data_manager.py lines
308-360) after the portfolio lookup.  The removal loop evaluates
`portfolio._positions_match(existing_pos, dummy_position)` on its first
iteration; `Portfolio` (models/portfolio.py) defines no method
`_positions_match`, so a non-empty position list raises `AttributeError`
before any position is popped.  (A corrected implementation exists in the
file but is indented inside `debug_positions`, lines 566-636, where it is a
never-called local function.) -/
def removeClosedPositionBody (pf : Portfolio) : Except PyError Portfolio :=
  match pf.positions with
  | [] => .ok pf
  | _ :: _ => .error .attributeError

/-- `DataManager._remove_closed_position` with its enclosing try/except: a
missing account returns early; an empty position list falls through the loop
(warning logged); a non-empty list raises `AttributeError` which the
`except` catches.  In every case the state is left untouched. -/
def removeClosedPosition (s : DMState) (accountId : String) (_c : Contract) :
    DMState :=
  match alistGet s.portfolios accountId with
  | none => s
  | some pf =>
    match removeClosedPositionBody pf with
    | .ok _ => s
    | .error _ => s

/-- `DataManager.update_position` (data_manager.py lines 156-201). -/
def updatePosition (s : DMState) (accountId : String) (pd : PositionData) :
    DMState :=
  if pd.position = 0 then removeClosedPosition s accountId pd.contract
  else
    let accountType := classifyAccount accountId
    match createPositionFromContract accountId accountType pd.contract pd
        s.marketData with
    | none => s
    | some pos =>
      let pf :=
        match alistGet s.portfolios accountId with
        | some pf => pf
        | none => Portfolio.create accountId accountType
      { s with portfolios := alistSet s.portfolios accountId (pf.addPosition pos) }

/-- `self.account_data[account_id][key] = {...}` (data_manager.py lines
374-381), keeping the numeric value (the currency and timestamp fields are
never read back by the reconciliation logic). -/
def setAccountData (ad : List (String × List (String × ℚ)))
    (accountId key : String) (v : ℚ) : List (String × List (String × ℚ)) :=
  let m := match alistGet ad accountId with | some m => m | none => []
  alistSet ad accountId (alistSet m key v)

/-- `DataManager.update_account_value` (data_manager.py lines 370-400).  The
`value` argument arrives as a string and is converted with `float`; it is
modelled already parsed. -/
def updateAccountValue (s : DMState) (accountId key : String) (value : ℚ)
    (_currency : String) : DMState :=
  let s1 := { s with accountData := setAccountData s.accountData accountId key value }
  match alistGet s1.portfolios accountId with
  | none => s1
  | some pf =>
    let pf1 :=
      if key = "CashBalance" then { pf with cash_balance := value }
      else if key = "BuyingPower" then { pf with buying_power := value }
      else pf
    { s1 with portfolios := alistSet s1.portfolios accountId pf1.calculateTotals }

/-- The validated Greeks dict built by `IBKRWrapper.tickOptionComputation`
and consumed by `DataManager.update_greeks_data` (keys `delta`, `gamma`,
`theta`, `vega`, `rho`, `implied_vol`, each read with default `0`). -/
structure GreeksInput where
  delta : ℚ
  gamma : ℚ
  theta : ℚ
  vega : ℚ
  rho : ℚ
  implied_vol : ℚ
deriving DecidableEq

/-- The per-position propagation of `DataManager.update_greeks_data`
(data_manager.py lines 141-147): options on the symbol receive the new
Greeks. -/
def setPositionGreeks (g : Greeks) (symbol : String) (p : Position) : Position :=
  if p.symbol = symbol ∧ (p.position_type = .call ∨ p.position_type = .put) then
    { p with greeks := some g }
  else p

/-- `DataManager.update_greeks_data` (data_manager.py lines 123-154). -/
def updateGreeksData (s : DMState) (symbol : String) (gi : GreeksInput) : DMState :=
  let g : Greeks :=
    { delta := gi.delta, gamma := gi.gamma, theta := gi.theta, vega := gi.vega,
      rho := gi.rho, implied_volatility := gi.implied_vol }
  { s with
      greeksData := alistSet s.greeksData symbol g,
      portfolios := s.portfolios.map (fun kv =>
        (kv.1, { kv.2 with positions := kv.2.positions.map (setPositionGreeks g symbol) })) }

/-- `valid_delta` in `IBKRWrapper.tickOptionComputation` (ibkr_client.py
line 158). -/
def clampDelta (d : ℚ) : ℚ := if d ≠ -2 ∧ |d| ≤ 1 then d else 0

/-- `valid_gamma` (ibkr_client.py line 159). -/
def clampGamma (g : ℚ) : ℚ := if g ≠ -2 ∧ 0 ≤ g then g else 0

/-- `valid_theta` (ibkr_client.py line 160). -/
def clampTheta (t : ℚ) : ℚ := if t ≠ -2 then t else 0

/-- `valid_vega` (ibkr_client.py line 161). -/
def clampVega (v : ℚ) : ℚ := if v ≠ -2 ∧ 0 ≤ v then v else 0

/-- `valid_iv` (ibkr_client.py line 162). -/
def clampIV (iv : ℚ) : ℚ := if 0 < iv ∧ iv ≠ -1 then iv else 0

/-- The `greeks_data` dict assembled by `tickOptionComputation` (no `rho`
key is sent, so `update_greeks_data` reads its default `0`). -/
def tickOptionGreeksInput (impliedVol delta gamma vega theta : ℚ) : GreeksInput :=
  { delta := clampDelta delta, gamma := clampGamma gamma,
    theta := clampTheta theta, vega := clampVega vega, rho := 0,
    implied_vol := clampIV impliedVol }

/-- `IBKRWrapper.tickOptionComputation` (ibkr_client.py lines 149-176)
composed with the `main.py` callback routing (line 228) into
`DataManager.update_greeks_data`: only tick types 10 and 82 are processed. -/
def processTickOptionComputation (s : DMState) (symbol : String) (tickType : ℕ)
    (impliedVol delta gamma vega theta : ℚ) : DMState :=
  if tickType = 10 ∨ tickType = 82 then
    updateGreeksData s symbol (tickOptionGreeksInput impliedVol delta gamma vega theta)
  else s

/-- `DataManager.update_market_data` (data_manager.py lines 62-121),
restricted to the `price` field — the only `MarketData` field that the
portfolio logic reads back (fallback pricing and the service price loop). -/
def updateMarketData (s : DMState) (symbol : String) (lastPrice : ℚ) : DMState :=
  { s with marketData := alistSet s.marketData symbol lastPrice }

/-- The price refresh of `PortfolioService._update_portfolio_calculations`
(portfolio_service.py lines 188-191): a position is re-priced when market
data exists for its symbol with a positive price. -/
def serviceUpdatePositionPrice (md : List (String × ℚ)) (p : Position) : Position :=
  match alistGet md p.symbol with
  | some price => if 0 < price then p.updatePrice price else p
  | none => p

/-- `PortfolioService._update_portfolio_calculations` (portfolio_service.py
lines 180-197): recalculate totals, re-price every position, recalculate
again. -/
def servicePortfolioCalc (s : DMState) : DMState :=
  { s with portfolios := s.portfolios.map (fun kv =>
      (kv.1,
        let pf1 := kv.2.calculateTotals
        let pf2 := { pf1 with positions := pf1.positions.map (serviceUpdatePositionPrice s.marketData) }
        pf2.calculateTotals)) }

/-- The four upstream event channels plus the service recalculation pass —
every code path of the embedding that mutates `DMState`. -/
inductive Event
  | posDelta (accountId : String) (pd : PositionData)
  | acctValue (accountId key : String) (value : ℚ) (currency : String)
  | greeksTick (symbol : String) (tickType : ℕ) (impliedVol delta gamma vega theta : ℚ)
  | priceTick (symbol : String) (price : ℚ)
  | serviceCalc

def step (s : DMState) : Event → DMState
  | .posDelta a pd => updatePosition s a pd
  | .acctValue a k v cur => updateAccountValue s a k v cur
  | .greeksTick sym tt iv d g vg th => processTickOptionComputation s sym tt iv d g vg th
  | .priceTick sym p => updateMarketData s sym p
  | .serviceCalc => servicePortfolioCalc s

/-- Run a sequence of events against the freshly initialised manager. -/
def run (events : List Event) : DMState := events.foldl step initState

/-- The roll-up consistency relation of spec §4.2/§8: the portfolio's totals
are exactly the sums over its positions plus the cash balance. -/
def totalsOk (pf : Portfolio) : Prop :=
  pf.total_value = sumMarketValue pf.positions + pf.cash_balance ∧
  pf.day_pnl = sumDayPnl pf.positions ∧
  pf.total_pnl = sumTotalPnl pf.positions

/-- Every portfolio held by the manager satisfies `totalsOk`. -/
def portfoliosOk (s : DMState) : Prop :=
  ∀ a pf, (a, pf) ∈ s.portfolios → totalsOk pf

/-! ### Reference-level model for the snapshot claim

Python passes `Portfolio` objects by reference: `DataManager.portfolios` maps
account ids to object references, and `get_dashboard_data` (data_manager.py
line 430) hands out `self.portfolios.copy()` — a new dict holding the *same*
object references.  To reason about aliasing we make the heap explicit:
`heap` maps references to `Portfolio` values and `portfolios` maps account
ids to references.  In-place mutation of a portfolio is a heap write at its
reference. -/

structure RefState where
  heap : List (ℕ × Portfolio)
  portfolios : List (String × ℕ)
deriving DecidableEq

/-- The `portfolios` component of `get_dashboard_data`'s `DashboardData`:
`self.portfolios.copy()`, i.e. a fresh dict with the same keys and the same
`Portfolio` references. -/
def dashboardPortfolios (m : RefState) : List (String × ℕ) := m.portfolios

/-- Dereference a snapshot against a heap: what a consumer holding the
snapshot observes when it reads the portfolio objects. -/
def readPortfolios (snap : List (String × ℕ)) (heap : List (ℕ × Portfolio)) :
    List (String × Option Portfolio) :=
  snap.map (fun kv => (kv.1, alistGet heap kv.2))

/-- `DataManager.update_account_value`'s portfolio branch (data_manager.py
lines 383-395) at reference level: the `Portfolio` object is mutated in
place, i.e. the heap cell at its reference is overwritten. -/
def refUpdateAccountValue (m : RefState) (accountId key : String) (value : ℚ) :
    RefState :=
  match alistGet m.portfolios accountId with
  | none => m
  | some r =>
    match alistGet m.heap r with
    | none => m
    | some pf =>
      let pf1 :=
        if key = "CashBalance" then { pf with cash_balance := value }
        else if key = "BuyingPower" then { pf with buying_power := value }
        else pf
      { m with heap := alistSet m.heap r pf1.calculateTotals }

/-- `PortfolioService.remove_account` (portfolio_service.py lines 141-143):
`del self.data_manager.portfolios[account_id]` — removes the dict entry, the
object itself stays alive for anyone still holding its reference. -/
def refRemoveAccount (m : RefState) (accountId : String) : RefState :=
  { m with portfolios := alistRemove m.portfolios accountId }

/-! ### Concrete inputs used by witnesses and counterexamples -/

/-- An equity (`STK`) contract for AAPL. -/
def aaplContract : Contract :=
  { symbol := "AAPL", secType := "STK", right := none, strike := none,
    lastTradeDateOrContractMonth := none }

/-- The spec §8 scenario opening delta: quantity 100, avg cost 150, market
price 155, valuation fields left to the engine. -/
def aaplOpenDelta : PositionData :=
  { contract := aaplContract, position := 100, average_cost := 150,
    market_price := 155, market_value := 0, unrealized_pnl := 0, realized_pnl := 0 }

/-- The spec §8 scenario closing delta: same instrument, quantity 0. -/
def aaplCloseDelta : PositionData :=
  { contract := aaplContract, position := 0, average_cost := 0,
    market_price := 0, market_value := 0, unrealized_pnl := 0, realized_pnl := 0 }

/-- The spec §8 scenario position as stored after the opening delta. -/
def aaplPosition : Position :=
  { symbol := "AAPL", account_id := "ACC1", account_type := .individualTaxable,
    position_type := .stock, quantity := 100, avg_cost := 150,
    current_price := 155, market_value := 15500, unrealized_pnl := 500,
    realized_pnl := 0, day_pnl := 0, strike_price := none, expiry := none,
    option_type := none, greeks := none }

/-- An AAPL call contract whose expiry arrives in the feed's `YYYYMMDD`
format. -/
def aaplOptContract : Contract :=
  { symbol := "AAPL", secType := "OPT", right := some "C", strike := some 150,
    lastTradeDateOrContractMonth := some "20251219" }

def aaplOptOpenDelta : PositionData :=
  { contract := aaplOptContract, position := 2, average_cost := 5,
    market_price := 7, market_value := 0, unrealized_pnl := 0, realized_pnl := 0 }

def aaplOptCloseDelta : PositionData :=
  { contract := aaplOptContract, position := 0, average_cost := 0,
    market_price := 0, market_value := 0, unrealized_pnl := 0, realized_pnl := 0 }

/-- A futures (`FUT`) contract. -/
def esFutContract : Contract :=
  { symbol := "ES", secType := "FUT", right := none, strike := none,
    lastTradeDateOrContractMonth := some "20250620" }

def esFutDelta : PositionData :=
  { contract := esFutContract, position := 5, average_cost := 5000,
    market_price := 5100, market_value := 0, unrealized_pnl := 0, realized_pnl := 0 }

/-- An equity delta whose feed-supplied `market_value` (999) disagrees with
`quantity * market_price` (100 * 155). -/
def aaplVerbatimDelta : PositionData :=
  { contract := aaplContract, position := 100, average_cost := 150,
    market_price := 155, market_value := 999, unrealized_pnl := 0, realized_pnl := 0 }

/-- An equity contract for XYZ. -/
def xyzContract : Contract :=
  { symbol := "XYZ", secType := "STK", right := none, strike := none,
    lastTradeDateOrContractMonth := none }

/-- A long XYZ delta: 10 shares at avg 50, price 100. -/
def xyzLongDelta : PositionData :=
  { contract := xyzContract, position := 10, average_cost := 50,
    market_price := 100, market_value := 0, unrealized_pnl := 0, realized_pnl := 0 }

/-- A short XYZ delta replacing the long one: -10 shares at avg 50, price 40.
It gives the portfolio a negative total value, so the percentage guards in
`calculate_totals` fail. -/
def xyzShortDelta : PositionData :=
  { contract := xyzContract, position := -10, average_cost := 50,
    market_price := 40, market_value := 0, unrealized_pnl := 0, realized_pnl := 0 }

/-- The stored position after `xyzLongDelta`: 10 shares, price 100, market
value 1000, unrealized P&L 500. -/
def xyzLongPosition : Position :=
  { symbol := "XYZ", account_id := "ACC1", account_type := .individualTaxable,
    position_type := .stock, quantity := 10, avg_cost := 50,
    current_price := 100, market_value := 1000, unrealized_pnl := 500,
    realized_pnl := 0, day_pnl := 0, strike_price := none, expiry := none,
    option_type := none, greeks := none }

/-- The stored position after `xyzShortDelta`: -10 shares, price 40, market
value -400, unrealized P&L 100. -/
def xyzShortPosition : Position :=
  { symbol := "XYZ", account_id := "ACC1", account_type := .individualTaxable,
    position_type := .stock, quantity := -10, avg_cost := 50,
    current_price := 40, market_value := -400, unrealized_pnl := 100,
    realized_pnl := 0, day_pnl := 0, strike_price := none, expiry := none,
    option_type := none, greeks := none }

/-- The `ACC1` portfolio after `xyzLongDelta`: totals recomputed, percentage
`500 / 500 * 100 = 100`. -/
def xyzPortfolio1 : Portfolio :=
  { account_id := "ACC1", account_type := .individualTaxable,
    positions := [xyzLongPosition], cash_balance := 0, total_value := 1000,
    day_pnl := 0, total_pnl := 500, buying_power := 0, margin_used := 0,
    total_pnl_percent := 100, day_pnl_percent := 0 }

/-- The `ACC1` portfolio after `xyzShortDelta` replaces the long position:
`total_value = -400` fails the `> 0` guard, so both percentages keep their
previous values (100 and 0). -/
def xyzPortfolio2 : Portfolio :=
  { account_id := "ACC1", account_type := .individualTaxable,
    positions := [xyzShortPosition], cash_balance := 0, total_value := -400,
    day_pnl := 0, total_pnl := 100, buying_power := 0, margin_used := 0,
    total_pnl_percent := 100, day_pnl_percent := 0 }

/-- A reference-level manager holding one empty portfolio for `ACC1` at
reference 0. -/
def refState0 : RefState :=
  { heap := [(0, Portfolio.create "ACC1" .individualTaxable)],
    portfolios := [("ACC1", 0)] }

/-- The portfolio stored for `ACC1` after the §8 opening delta: one AAPL
position, totals recomputed (`500 / 15000 * 100 = 10/3` percent P&L). -/
def aaplPortfolio : Portfolio :=
  { account_id := "ACC1", account_type := .individualTaxable,
    positions := [aaplPosition], cash_balance := 0, total_value := 15500,
    day_pnl := 0, total_pnl := 500, buying_power := 0, margin_used := 0,
    total_pnl_percent := 10 / 3, day_pnl_percent := 0 }

/-! ## Helper lemmas -/

theorem alistGet_alistSet_self {κ α : Type} [DecidableEq κ]
    (l : List (κ × α)) (k : κ) (v : α) : alistGet (alistSet l k v) k = some v := by
  induction l with
  | nil => simp [alistGet, alistSet]
  | cons h t ih =>
    obtain ⟨k', v'⟩ := h
    by_cases hk : k' = k <;> simp [alistGet, alistSet, hk, ih]

theorem alistSet_alistSet {κ α : Type} [DecidableEq κ]
    (l : List (κ × α)) (k : κ) (v w : α) :
    alistSet (alistSet l k v) k w = alistSet l k w := by
  induction l with
  | nil => simp [alistSet]
  | cons h t ih =>
    obtain ⟨k', v'⟩ := h
    by_cases hk : k' = k <;> simp [alistSet, hk, ih]

theorem mem_alistSet {κ α : Type} [DecidableEq κ]
    {l : List (κ × α)} {k : κ} {v : α} {a : κ} {b : α}
    (h : (a, b) ∈ alistSet l k v) : (a, b) ∈ l ∨ b = v := by
  induction l with
  | nil => simp [alistSet] at h; exact Or.inr h.2
  | cons hd t ih =>
    obtain ⟨k', v'⟩ := hd
    by_cases hk : k' = k
    · simp [alistSet, hk] at h
      rcases h with h | h
      · exact Or.inr h.2
      · exact Or.inl (List.mem_cons_of_mem _ h)
    · simp [alistSet, hk] at h
      rcases h with h | h
      · exact Or.inl (by simp [h])
      · rcases ih h with h' | h'
        · exact Or.inl (List.mem_cons_of_mem _ h')
        · exact Or.inr h'

theorem calculateTotals_positions (pf : Portfolio) :
    pf.calculateTotals.positions = pf.positions := rfl

theorem calculateTotals_cash (pf : Portfolio) :
    pf.calculateTotals.cash_balance = pf.cash_balance := rfl

theorem totalsOk_calculateTotals (pf : Portfolio) : totalsOk pf.calculateTotals :=
  ⟨rfl, rfl, rfl⟩

theorem totalsOk_addPosition (pf : Portfolio) (pos : Position) :
    totalsOk (pf.addPosition pos) := totalsOk_calculateTotals _

theorem removeClosedPosition_eq (s : DMState) (a : String) (c : Contract) :
    removeClosedPosition s a c = s := by
  unfold removeClosedPosition
  split
  · rfl
  · split <;> rfl

theorem samePositionKey_self (p : Position) : samePositionKey p p = true := by
  simp [samePositionKey]

theorem replaceOrAppend_idem (l : List Position) (p : Position) :
    replaceOrAppend (replaceOrAppend l p) p = replaceOrAppend l p := by
  induction l with
  | nil => simp [replaceOrAppend, samePositionKey_self]
  | cons x t ih =>
    by_cases hx : samePositionKey x p = true
    · simp [replaceOrAppend, hx, samePositionKey_self]
    · simp [replaceOrAppend, hx, ih]

theorem calculateTotals_idem (pf : Portfolio) :
    pf.calculateTotals.calculateTotals = pf.calculateTotals := by
  unfold Portfolio.calculateTotals
  simp only []
  split_ifs <;> rfl

theorem withPositions_self (q : Portfolio) : { q with positions := q.positions } = q := rfl

theorem addPosition_idem (pf : Portfolio) (pos : Position) :
    (pf.addPosition pos).addPosition pos = pf.addPosition pos := by
  have hpos : replaceOrAppend (pf.addPosition pos).positions pos =
      (pf.addPosition pos).positions := by
    show replaceOrAppend (replaceOrAppend pf.positions pos) pos =
      replaceOrAppend pf.positions pos
    exact replaceOrAppend_idem pf.positions pos
  show Portfolio.calculateTotals
      { pf.addPosition pos with positions := replaceOrAppend (pf.addPosition pos).positions pos } =
    pf.addPosition pos
  rw [hpos, withPositions_self]
  exact calculateTotals_idem _

theorem updatePosition_updatePosition (s : DMState) (a : String) (pd : PositionData) :
    updatePosition (updatePosition s a pd) a pd = updatePosition s a pd := by
  by_cases h0 : pd.position = 0
  · simp [updatePosition, h0, removeClosedPosition_eq]
  · cases hc : createPositionFromContract a (classifyAccount a) pd.contract pd s.marketData with
    | none => simp [updatePosition, h0, hc]
    | some pos =>
      simp [updatePosition, h0, hc, alistGet_alistSet_self, addPosition_idem,
        alistSet_alistSet]

/-! ## Claim theorems -/

/-- C1 (code_bug evidence).  A position delta with quantity 0 removes
nothing: `_remove_closed_position` always leaves the manager state untouched
(its matching loop calls the nonexistent `Portfolio._positions_match` and the
`AttributeError` is swallowed), and concretely, after opening the spec §8
AAPL position, the zero-quantity closing delta leaves the state — position
included — exactly as it was, with no totals recompute. -/
theorem zero_quantity_delta_removes_nothing :
    (∀ (s : DMState) (a : String) (c : Contract), removeClosedPosition s a c = s) ∧
    (updatePosition (updatePosition initState "ACC1" aaplOpenDelta) "ACC1" aaplCloseDelta =
      updatePosition initState "ACC1" aaplOpenDelta) ∧
    ((alistGet (updatePosition initState "ACC1" aaplOpenDelta).portfolios "ACC1").map
        (fun pf => pf.positions.map Position.symbol) = some ["AAPL"]) := by
  refine ⟨removeClosedPosition_eq, ?_, ?_⟩
  · simp [updatePosition, aaplCloseDelta, removeClosedPosition_eq]
  · norm_num [updatePosition, createPositionFromContract, initState, aaplOpenDelta,
      aaplContract, classifyAccount, strContains, charsContain, charsStartWith,
      truthyStr, pyInt, alistGet, alistSet, Portfolio.create, Portfolio.addPosition,
      Portfolio.calculateTotals, replaceOrAppend, samePositionKey, Position.postInit,
      sumMarketValue, sumDayPnl, sumTotalPnl]

/-- C3.  Applying the same position delta N ≥ 1 times yields the same manager
state as applying it once: the update is an absolute replace-and-recompute,
so no duplicate entry is ever created for an existing identity. -/
theorem update_position_idempotent (s : DMState) (a : String) (pd : PositionData)
    (n : ℕ) (h : 1 ≤ n) :
    (fun st => updatePosition st a pd)^[n] s = updatePosition s a pd := by
  obtain ⟨m, rfl⟩ : ∃ m, n = m + 1 := ⟨n - 1, by omega⟩
  clear h
  induction m generalizing s with
  | zero => simp
  | succ k ih =>
    rw [Function.iterate_succ_apply, ih (updatePosition s a pd)]
    exact updatePosition_updatePosition s a pd

/-- Witness for C3 at the concrete AAPL opening delta with N = 3. -/
theorem update_position_idempotent_witness :
    1 ≤ 3 ∧
    (fun st => updatePosition st "ACC1" aaplOpenDelta)^[3] initState =
      updatePosition initState "ACC1" aaplOpenDelta :=
  ⟨by norm_num, update_position_idempotent initState "ACC1" aaplOpenDelta 3 (by norm_num)⟩

/-- C4 (code_bug evidence).  The feed expiry `"20251219"` is normalized to
the internal display format `"12/19/2025"` and stored that way when the
option position is opened — so the closing delta's contract resolves to the
same instrument identity — yet the zero-quantity closing delta removes
nothing: the state is unchanged, position included. -/
theorem option_close_normalizes_date_but_never_removes :
    formatExpiryDate "20251219" = "12/19/2025" ∧
    ((alistGet (updatePosition initState "ACC1" aaplOptOpenDelta).portfolios "ACC1").map
        (fun pf => pf.positions.map Position.expiry) = some [some "12/19/2025"]) ∧
    (updatePosition (updatePosition initState "ACC1" aaplOptOpenDelta) "ACC1"
        aaplOptCloseDelta =
      updatePosition initState "ACC1" aaplOptOpenDelta) := by
  refine ⟨?_, ?_, ?_⟩
  · norm_num [formatExpiryDate]
    decide
  · norm_num [updatePosition, createPositionFromContract, initState, aaplOptOpenDelta,
      aaplOptContract, classifyAccount, strContains, charsContain, charsStartWith,
      truthyStr, pyInt, alistGet, alistSet, Portfolio.create, Portfolio.addPosition,
      Portfolio.calculateTotals, replaceOrAppend, samePositionKey, Position.postInit,
      sumMarketValue, sumDayPnl, sumTotalPnl, formatExpiryDate]
    decide
  · simp [updatePosition, aaplOptCloseDelta, removeClosedPosition_eq]

theorem setPositionGreeks_market_value (g : Greeks) (sym : String) (p : Position) :
    (setPositionGreeks g sym p).market_value = p.market_value := by
  unfold setPositionGreeks; split <;> rfl

theorem setPositionGreeks_day_pnl (g : Greeks) (sym : String) (p : Position) :
    (setPositionGreeks g sym p).day_pnl = p.day_pnl := by
  unfold setPositionGreeks; split <;> rfl

theorem setPositionGreeks_unrealized_pnl (g : Greeks) (sym : String) (p : Position) :
    (setPositionGreeks g sym p).unrealized_pnl = p.unrealized_pnl := by
  unfold setPositionGreeks; split <;> rfl

theorem setPositionGreeks_realized_pnl (g : Greeks) (sym : String) (p : Position) :
    (setPositionGreeks g sym p).realized_pnl = p.realized_pnl := by
  unfold setPositionGreeks; split <;> rfl

theorem sumMarketValue_setGreeks (g : Greeks) (sym : String) (l : List Position) :
    sumMarketValue (l.map (setPositionGreeks g sym)) = sumMarketValue l := by
  induction l with
  | nil => rfl
  | cons x t ih =>
    simp [sumMarketValue, setPositionGreeks_market_value] at ih ⊢
    exact ih

theorem sumDayPnl_setGreeks (g : Greeks) (sym : String) (l : List Position) :
    sumDayPnl (l.map (setPositionGreeks g sym)) = sumDayPnl l := by
  induction l with
  | nil => rfl
  | cons x t ih =>
    simp [sumDayPnl, setPositionGreeks_day_pnl] at ih ⊢
    exact ih

theorem sumTotalPnl_setGreeks (g : Greeks) (sym : String) (l : List Position) :
    sumTotalPnl (l.map (setPositionGreeks g sym)) = sumTotalPnl l := by
  induction l with
  | nil => rfl
  | cons x t ih =>
    simp [sumTotalPnl, setPositionGreeks_unrealized_pnl,
      setPositionGreeks_realized_pnl] at ih ⊢
    exact ih

theorem totalsOk_setGreeks (pf : Portfolio) (g : Greeks) (sym : String)
    (h : totalsOk pf) :
    totalsOk { pf with positions := pf.positions.map (setPositionGreeks g sym) } := by
  obtain ⟨h1, h2, h3⟩ := h
  refine ⟨?_, ?_, ?_⟩
  · show pf.total_value = sumMarketValue (pf.positions.map (setPositionGreeks g sym)) +
      pf.cash_balance
    rw [sumMarketValue_setGreeks]; exact h1
  · show pf.day_pnl = sumDayPnl (pf.positions.map (setPositionGreeks g sym))
    rw [sumDayPnl_setGreeks]; exact h2
  · show pf.total_pnl = sumTotalPnl (pf.positions.map (setPositionGreeks g sym))
    rw [sumTotalPnl_setGreeks]; exact h3

theorem portfoliosOk_step (s : DMState) (e : Event) (h : portfoliosOk s) :
    portfoliosOk (step s e) := by
  cases e with
  | posDelta a pd =>
    show portfoliosOk (updatePosition s a pd)
    unfold updatePosition
    by_cases h0 : pd.position = 0
    · rw [if_pos h0, removeClosedPosition_eq]; exact h
    · rw [if_neg h0]
      dsimp only
      cases hc : createPositionFromContract a (classifyAccount a) pd.contract pd
          s.marketData with
      | none => exact h
      | some pos =>
        intro a' pf' hmem
        rcases @mem_alistSet _ _ _ s.portfolios a _ a' pf' hmem with hin | heq
        · exact h a' pf' hin
        · rw [heq]; exact totalsOk_addPosition _ _
  | acctValue a k v cur =>
    show portfoliosOk (updateAccountValue s a k v cur)
    unfold updateAccountValue
    dsimp only
    cases hg : alistGet s.portfolios a with
    | none => intro a' pf' hmem; exact h a' pf' hmem
    | some pf =>
      intro a' pf' hmem
      rcases @mem_alistSet _ _ _ s.portfolios a _ a' pf' hmem with hin | heq
      · exact h a' pf' hin
      · rw [heq]; exact totalsOk_calculateTotals _
  | greeksTick sym tt iv d g vg th =>
    show portfoliosOk (processTickOptionComputation s sym tt iv d g vg th)
    unfold processTickOptionComputation
    split
    · unfold updateGreeksData
      intro a' pf' hmem
      rcases List.mem_map.mp hmem with ⟨⟨b, q⟩, hq, hb⟩
      cases hb
      exact totalsOk_setGreeks _ _ _ (h b q hq)
    · exact h
  | priceTick sym p => exact h
  | serviceCalc =>
    show portfoliosOk (servicePortfolioCalc s)
    unfold servicePortfolioCalc
    intro a' pf' hmem
    rcases List.mem_map.mp hmem with ⟨⟨b, q⟩, hq, hb⟩
    cases hb
    exact totalsOk_calculateTotals _

theorem portfoliosOk_foldl (evs : List Event) (s : DMState) (h : portfoliosOk s) :
    portfoliosOk (evs.foldl step s) := by
  induction evs generalizing s with
  | nil => exact h
  | cons e t ih => exact ih _ (portfoliosOk_step s e h)

/-- C2.  After any sequence of applied events (position deltas, account-value
deltas, Greeks ticks, price ticks, service recalculations), every portfolio
held by the manager satisfies `total_value = Σ market_value + cash_balance`,
`day_pnl = Σ position day_pnl` and `total_pnl = Σ (unrealized + realized)`:
the roll-up fields are only ever produced by the wholesale recompute, never
independently mutated. -/
theorem totals_recompute_invariant (events : List Event) (a : String)
    (pf : Portfolio) (h : (a, pf) ∈ (run events).portfolios) :
    pf.total_value = sumMarketValue pf.positions + pf.cash_balance ∧
    pf.day_pnl = sumDayPnl pf.positions ∧
    pf.total_pnl = sumTotalPnl pf.positions := by
  have h0 : portfoliosOk initState := by
    intro a0 pf0 hm
    simp [initState] at hm
  exact portfoliosOk_foldl events initState h0 a pf h

/-- Witness for C2 after the concrete §8 opening delta. -/
theorem totals_recompute_invariant_witness :
    ("ACC1", aaplPortfolio) ∈ (run [Event.posDelta "ACC1" aaplOpenDelta]).portfolios ∧
    (aaplPortfolio.total_value =
        sumMarketValue aaplPortfolio.positions + aaplPortfolio.cash_balance ∧
      aaplPortfolio.day_pnl = sumDayPnl aaplPortfolio.positions ∧
      aaplPortfolio.total_pnl = sumTotalPnl aaplPortfolio.positions) := by
  have hacct : classifyAccount "ACC1" = AccountType.individualTaxable := by decide
  have hcreate : createPositionFromContract "ACC1" AccountType.individualTaxable
      aaplContract aaplOpenDelta [] = some aaplPosition := by
    norm_num [createPositionFromContract, aaplOpenDelta, aaplContract, truthyStr,
      pyInt, alistGet, Position.postInit, aaplPosition]
    exact fun h => absurd h (by decide)
  have hq : aaplOpenDelta.position = (100 : ℚ) := rfl
  have hco : aaplOpenDelta.contract = aaplContract := rfl
  have hmem : ("ACC1", aaplPortfolio) ∈
      (run [Event.posDelta "ACC1" aaplOpenDelta]).portfolios := by
    norm_num [run, step, updatePosition, initState, hq, hco, hacct, hcreate,
      alistGet, alistSet, Portfolio.create, Portfolio.addPosition,
      Portfolio.calculateTotals, replaceOrAppend, samePositionKey,
      Position.postInit, sumMarketValue, sumDayPnl, sumTotalPnl, aaplPortfolio,
      aaplPosition]
  exact ⟨hmem, totals_recompute_invariant _ _ _ hmem⟩

/-- C5.  Every Greeks update processed through `tickOptionComputation` stores
clamped values: a delta equal to the sentinel −2 or with magnitude above 1 is
stored as 0; an in-range delta (such as 0.73) is stored verbatim; negative
(or sentinel) gamma and vega are stored as 0; implied volatility ≤ 0 or equal
to −1 is stored as 0. -/
theorem greeks_clamping (s : DMState) (sym : String) (tt : ℕ)
    (iv d g vg th : ℚ) (htt : tt = 10 ∨ tt = 82) :
    ∃ st : Greeks,
      alistGet (processTickOptionComputation s sym tt iv d g vg th).greeksData sym =
        some st ∧
      ((d = -2 ∨ 1 < |d|) → st.delta = 0) ∧
      (d ≠ -2 ∧ |d| ≤ 1 → st.delta = d) ∧
      ((g = -2 ∨ g < 0) → st.gamma = 0) ∧
      ((vg = -2 ∨ vg < 0) → st.vega = 0) ∧
      ((iv ≤ 0 ∨ iv = -1) → st.implied_volatility = 0) := by
  refine ⟨{ delta := clampDelta d, gamma := clampGamma g, theta := clampTheta th,
            vega := clampVega vg, rho := 0, implied_volatility := clampIV iv },
    ?_, ?_, ?_, ?_, ?_, ?_⟩
  · unfold processTickOptionComputation
    rcases htt with h | h <;> subst h <;>
      simp [updateGreeksData, tickOptionGreeksInput, alistGet_alistSet_self]
  · intro hd
    unfold clampDelta
    rcases hd with h | h
    · simp [h]
    · rw [if_neg]
      rintro ⟨-, hle⟩
      linarith
  · rintro ⟨h1, h2⟩
    unfold clampDelta
    rw [if_pos ⟨h1, h2⟩]
  · intro hg
    unfold clampGamma
    rcases hg with h | h
    · simp [h]
    · rw [if_neg]
      rintro ⟨-, hge⟩
      linarith
  · intro hv
    unfold clampVega
    rcases hv with h | h
    · simp [h]
    · rw [if_neg]
      rintro ⟨-, hge⟩
      linarith
  · intro hiv
    unfold clampIV
    rcases hiv with h | h
    · rw [if_neg]
      rintro ⟨hpos, -⟩
      linarith
    · simp [h]

/-- Witness for C5: tick type 10 with sentinel/out-of-range inputs
(iv = −1, delta = −2, gamma = −1, vega = −1) stores all zeros. -/
theorem greeks_clamping_witness :
    ∃ st : Greeks,
      alistGet (processTickOptionComputation initState "AAPL_OPT" 10
          (-1) (-2) (-1) (-1) (-2)).greeksData "AAPL_OPT" = some st ∧
      st.delta = 0 ∧ st.gamma = 0 ∧ st.vega = 0 ∧ st.implied_volatility = 0 := by
  obtain ⟨st, hget, hd, -, hg, hv, hiv⟩ :=
    greeks_clamping initState "AAPL_OPT" 10 (-1) (-2) (-1) (-1) (-2) (Or.inl rfl)
  exact ⟨st, hget, hd (Or.inl rfl), hg (Or.inr (by norm_num)),
    hv (Or.inr (by norm_num)), hiv (Or.inl (by norm_num))⟩

/-- C6 counterexample.  A futures (`FUT`) position delta stores nothing — not
even a portfolio is created (`PositionType.FUTURE` does not exist, the
`AttributeError` is caught and the event dropped) — and an equity delta whose
feed supplies `market_value = 999` stores 999 verbatim even though
`quantity * current_price = 100 * 155`. -/
theorem instrument_kind_formula_counterexample :
    (updatePosition initState "ACC1" esFutDelta).portfolios = [] ∧
    ((alistGet (updatePosition initState "ACC1" aaplVerbatimDelta).portfolios "ACC1").map
        (fun pf => pf.positions.map (fun p => (p.quantity, p.current_price, p.market_value))) =
      some [((100 : ℚ), (155 : ℚ), (999 : ℚ))]) ∧
    (999 : ℚ) ≠ 100 * 155 := by
  refine ⟨?_, ?_, by norm_num⟩
  · simp [updatePosition, esFutDelta, esFutContract, createPositionFromContract,
      initState]
  · norm_num [updatePosition, createPositionFromContract, initState,
      aaplVerbatimDelta, aaplContract, truthyStr, pyInt, alistGet, alistSet,
      Portfolio.create, Portfolio.addPosition, Portfolio.calculateTotals,
      replaceOrAppend, samePositionKey, Position.postInit, sumMarketValue,
      sumDayPnl, sumTotalPnl]

/-- C6 amended.  For a delta whose feed leaves `market_value` and
`unrealized_pnl` at 0 (and supplies a nonzero market price): an equity
(`STK`) delta stores `market_value = quantity * current_price` and
`unrealized_pnl = (current_price - avg_cost) * quantity`; an option (`OPT`,
right C) delta stores both scaled by the fixed multiplier 100; a futures
(`FUT`) delta stores no position at all — `PositionType` has no `FUTURE`
member, so position creation fails and the event is dropped (feed-supplied
nonzero values are otherwise stored verbatim, per the counterexample). -/
theorem instrument_kind_formulas_amended (s : DMState) (a : String)
    (pd : PositionData) (hmv : pd.market_value = 0) (hup : pd.unrealized_pnl = 0)
    (hmp : pd.market_price ≠ 0) (hq : pd.position ≠ 0) :
    (pd.contract.secType = "STK" →
      ∃ pos, createPositionFromContract a (classifyAccount a) pd.contract pd
          s.marketData = some pos ∧
        pos.position_type = .stock ∧
        pos.market_value = pd.position * pd.market_price ∧
        pos.unrealized_pnl = (pd.market_price - pd.average_cost) * pd.position) ∧
    (pd.contract.secType = "OPT" → pd.contract.right = some "C" →
      ∃ pos, createPositionFromContract a (classifyAccount a) pd.contract pd
          s.marketData = some pos ∧
        pos.position_type = .call ∧
        pos.market_value = pd.position * pd.market_price * 100 ∧
        pos.unrealized_pnl = (pd.market_price - pd.average_cost) * pd.position * 100) ∧
    (pd.contract.secType = "FUT" → updatePosition s a pd = s) := by
  refine ⟨?_, ?_, ?_⟩
  · intro hsec
    have hfut : ("STK" = "FUT") = False := eq_false (by decide)
    have hky : (("STK" = "OPT") ∧ (truthyStr pd.contract.right = true)) = False :=
      eq_false (by rintro ⟨hh, -⟩; exact absurd hh (by decide))
    have hopt : ("STK" = "OPT") = False := eq_false (by decide)
    simp only [createPositionFromContract, hsec, hfut, hky, hopt, hmv, hup, hmp,
      if_false, eq_self_iff_true, if_true, if_pos, if_neg, not_false_iff]
    refine ⟨Position.postInit _, rfl, rfl, ?_, ?_⟩
    · show (if ((pd.position * pd.market_price : ℚ) = 0) then _ else
        pd.position * pd.market_price) = pd.position * pd.market_price
      rw [if_neg (mul_ne_zero hq hmp)]
    · show (if (((pd.market_price - pd.average_cost) * pd.position : ℚ) = 0) then
          (pd.market_price - pd.average_cost) * pyInt pd.position
        else (pd.market_price - pd.average_cost) * pd.position) =
        (pd.market_price - pd.average_cost) * pd.position
      by_cases h0 : ((pd.market_price - pd.average_cost) * pd.position : ℚ) = 0
      · rw [if_pos h0]
        rcases mul_eq_zero.mp h0 with h1 | h1
        · rw [h1, zero_mul, zero_mul]
        · exact absurd h1 hq
      · rw [if_neg h0]
  · intro hsec hr
    have hfut : ("OPT" = "FUT") = False := eq_false (by decide)
    have hky : (("OPT" = "OPT") ∧ (truthyStr (some "C") = true)) = True :=
      eq_true ⟨rfl, by decide⟩
    have hc : (strUpper "C" = "C") = True := eq_true (by decide)
    have hpt1 : ((PositionType.call, some "C").1 = PositionType.stock) = False :=
      eq_false (by decide)
    have hpt2 : (PositionType.call = PositionType.stock) = False :=
      eq_false (by decide)
    simp only [createPositionFromContract, hsec, hr, hfut, hky, hc, hmv, hup, hmp,
      hpt1, hpt2, if_false, if_true, eq_self_iff_true, not_false_iff]
    refine ⟨Position.postInit _, rfl, rfl, ?_, ?_⟩
    · show (if ((pd.position * pd.market_price * 100 : ℚ) = 0) then _ else
        pd.position * pd.market_price * 100) = pd.position * pd.market_price * 100
      rw [if_neg (mul_ne_zero (mul_ne_zero hq hmp) (by norm_num))]
    · show (if (((pd.market_price - pd.average_cost) * pd.position * 100 : ℚ) = 0) then
          (pd.market_price - pd.average_cost) * pyInt pd.position * 100
        else (pd.market_price - pd.average_cost) * pd.position * 100) =
        (pd.market_price - pd.average_cost) * pd.position * 100
      by_cases h0 : ((pd.market_price - pd.average_cost) * pd.position * 100 : ℚ) = 0
      · rw [if_pos h0]
        have h1 : pd.market_price - pd.average_cost = 0 := by
          rcases mul_eq_zero.mp h0 with h2 | h2
          · rcases mul_eq_zero.mp h2 with h3 | h3
            · exact h3
            · exact absurd h3 hq
          · norm_num at h2
        rw [h1, zero_mul, zero_mul, zero_mul, zero_mul]
      · rw [if_neg h0]
  · intro hsec
    have hnone : createPositionFromContract a (classifyAccount a) pd.contract pd
        s.marketData = none := by
      unfold createPositionFromContract
      rw [if_pos hsec]
    unfold updatePosition
    rw [if_neg hq]
    dsimp only
    rw [hnone]

/-- Witness for C6 amended: the §8 AAPL equity delta (feed valuation fields
0, market price 155) stores 15500 and 500. -/
theorem instrument_kind_formulas_amended_witness :
    ∃ pos, createPositionFromContract "ACC1" (classifyAccount "ACC1")
        aaplOpenDelta.contract aaplOpenDelta initState.marketData = some pos ∧
      pos.position_type = .stock ∧
      pos.market_value = 100 * 155 ∧
      pos.unrealized_pnl = (155 - 150) * 100 := by
  obtain ⟨h1, -, -⟩ :=
    instrument_kind_formulas_amended initState "ACC1" aaplOpenDelta rfl rfl
      (by norm_num [aaplOpenDelta]) (by norm_num [aaplOpenDelta])
  obtain ⟨pos, hc, ht, hm, hu⟩ := h1 rfl
  refine ⟨pos, hc, ht, ?_, ?_⟩
  · rw [hm]
    norm_num [aaplOpenDelta]
  · rw [hu]
    norm_num [aaplOpenDelta]

/-- C7 counterexample.  With the §8 AAPL position (prior price 155, market
value 15500), a tick to 160 sets `day_pnl = 500`; a second identical tick to
160 sets `day_pnl = 0`: the accumulated +500 contribution is discarded, so
`day_pnl` is not the accumulated sum of per-tick contributions since the last
reset. -/
theorem day_pnl_overwritten_counterexample :
    ((aaplPosition.updatePrice 160).updatePrice 160).day_pnl = 0 ∧
    (aaplPosition.updatePrice 160).day_pnl = 500 ∧
    ¬ ((aaplPosition.updatePrice 160).updatePrice 160).day_pnl = 500 := by
  norm_num [Position.updatePrice, aaplPosition]

/-- C7 amended.  `update_price` overwrites `day_pnl` with only the latest
tick's contribution — the new market value minus the previous market value —
discarding the previously accumulated value; in the §8 scenario the 160 tick
yields market value 16000, unrealized P&L 1000 and day P&L +500. -/
theorem day_pnl_overwrite_amended :
    (∀ (p : Position) (x q : ℚ),
        (Position.updatePrice { p with day_pnl := q } x).day_pnl =
          (p.updatePrice x).day_pnl) ∧
    (∀ (p : Position) (x : ℚ),
        (p.updatePrice x).day_pnl = (p.updatePrice x).market_value - p.market_value) ∧
    ((aaplPosition.updatePrice 160).market_value = 16000 ∧
     (aaplPosition.updatePrice 160).unrealized_pnl = 1000 ∧
     (aaplPosition.updatePrice 160).day_pnl = 500) := by
  refine ⟨?_, ?_, ?_⟩
  · intro p x q
    simp [Position.updatePrice]
  · intro p x
    simp [Position.updatePrice]
  · norm_num [Position.updatePrice, aaplPosition]

/-- C8 counterexample.  After a long XYZ delta (which sets
`total_pnl_percent = 100`) is replaced by a short delta that drives
`total_value` to −400 and invested capital (`total_value - total_pnl`) to
−500 ≤ 0, the recompute leaves `total_pnl_percent` at its stale previous
value 100 instead of the claimed defined default 0. -/
theorem pnl_percent_stale_counterexample :
    ((alistGet (updatePosition (updatePosition initState "ACC1" xyzLongDelta) "ACC1"
          xyzShortDelta).portfolios "ACC1").map
        (fun pf => (pf.total_pnl_percent, pf.total_value - pf.total_pnl)) =
      some ((100 : ℚ), (-500 : ℚ))) ∧
    (100 : ℚ) ≠ 0 ∧ (-500 : ℚ) ≤ 0 := by
  refine ⟨?_, by norm_num, by norm_num⟩
  have hacct : classifyAccount "ACC1" = AccountType.individualTaxable := by decide
  have hco1 : xyzLongDelta.contract = xyzContract := rfl
  have hq1 : xyzLongDelta.position = (10 : ℚ) := rfl
  have hco2 : xyzShortDelta.contract = xyzContract := rfl
  have hq2 : xyzShortDelta.position = (-10 : ℚ) := rfl
  have hcreate1 : createPositionFromContract "ACC1" AccountType.individualTaxable
      xyzContract xyzLongDelta [] = some xyzLongPosition := by
    norm_num [createPositionFromContract, xyzLongDelta, xyzContract, truthyStr,
      pyInt, alistGet, Position.postInit, xyzLongPosition]
    exact fun h => absurd h (by decide)
  have hcreate2 : createPositionFromContract "ACC1" AccountType.individualTaxable
      xyzContract xyzShortDelta [] = some xyzShortPosition := by
    norm_num [createPositionFromContract, xyzShortDelta, xyzContract, truthyStr,
      pyInt, alistGet, Position.postInit, xyzShortPosition]
    exact fun h => absurd h (by decide)
  have hs1 : updatePosition initState "ACC1" xyzLongDelta =
      { marketData := [], greeksData := [], portfolios := [("ACC1", xyzPortfolio1)],
        accountData := [] } := by
    norm_num [updatePosition, initState, hacct, hco1, hq1, hcreate1, alistGet,
      alistSet, Portfolio.create, Portfolio.addPosition, Portfolio.calculateTotals,
      replaceOrAppend, samePositionKey, sumMarketValue, sumDayPnl, sumTotalPnl,
      xyzPortfolio1, xyzLongPosition]
  rw [hs1]
  have hs2 : updatePosition
      { marketData := [], greeksData := [], portfolios := [("ACC1", xyzPortfolio1)],
        accountData := [] } "ACC1" xyzShortDelta =
      { marketData := [], greeksData := [], portfolios := [("ACC1", xyzPortfolio2)],
        accountData := [] } := by
    norm_num [updatePosition, hacct, hco2, hq2, hcreate2, alistGet, alistSet,
      Portfolio.addPosition, Portfolio.calculateTotals, replaceOrAppend,
      samePositionKey, sumMarketValue, sumDayPnl, sumTotalPnl, xyzPortfolio1,
      xyzPortfolio2, xyzLongPosition, xyzShortPosition]
  rw [hs2]
  norm_num [alistGet, xyzPortfolio2]

/-- C8 amended.  `calculate_totals` updates `total_pnl_percent` to
`total_pnl / (total_value - total_pnl) * 100` exactly when the recomputed
`total_value` is positive and the invested-capital denominator is positive;
in every other case it leaves the previously stored percentage in place
(initially 0) — the division is only ever performed under those guards, so no
division fault can occur. -/
theorem pnl_percent_guarded_amended (pf : Portfolio) :
    (0 < pf.calculateTotals.total_value ∧
        0 < pf.calculateTotals.total_value - pf.calculateTotals.total_pnl →
      pf.calculateTotals.total_pnl_percent =
        pf.calculateTotals.total_pnl /
          (pf.calculateTotals.total_value - pf.calculateTotals.total_pnl) * 100) ∧
    (¬ (0 < pf.calculateTotals.total_value ∧
        0 < pf.calculateTotals.total_value - pf.calculateTotals.total_pnl) →
      pf.calculateTotals.total_pnl_percent = pf.total_pnl_percent) := by
  unfold Portfolio.calculateTotals
  dsimp only
  constructor
  · intro h
    rw [if_pos h]
  · intro h
    rw [if_neg h]

/-- Witness for C8 amended at the §8 portfolio: invested capital 15000 > 0,
so the percentage is 500 / 15000 * 100 = 10/3. -/
theorem pnl_percent_guarded_amended_witness :
    aaplPortfolio.calculateTotals.total_pnl_percent = 10 / 3 := by
  have hc : 0 < aaplPortfolio.calculateTotals.total_value ∧
      0 < aaplPortfolio.calculateTotals.total_value -
        aaplPortfolio.calculateTotals.total_pnl := by
    norm_num [Portfolio.calculateTotals, aaplPortfolio, aaplPosition,
      sumMarketValue, sumDayPnl, sumTotalPnl]
  rw [(pnl_percent_guarded_amended aaplPortfolio).1 hc]
  norm_num [Portfolio.calculateTotals, aaplPortfolio, aaplPosition,
    sumMarketValue, sumDayPnl, sumTotalPnl]

/-- C9 counterexample.  Take the dashboard snapshot of a manager holding one
empty `ACC1` portfolio, then deliver a cash-balance update of 500: reading
the previously returned snapshot now shows `cash_balance = 500` where it
showed 0 before the mutation — the snapshot's contents changed, so it is not
a deep, independent copy. -/
theorem snapshot_shallow_copy_counterexample :
    ((readPortfolios (dashboardPortfolios refState0)
        (refUpdateAccountValue refState0 "ACC1" "CashBalance" 500).heap).map
      (fun kv => kv.2.map Portfolio.cash_balance) = [some (500 : ℚ)]) ∧
    ((readPortfolios (dashboardPortfolios refState0) refState0.heap).map
      (fun kv => kv.2.map Portfolio.cash_balance) = [some (0 : ℚ)]) ∧
    (500 : ℚ) ≠ 0 := by
  refine ⟨?_, ?_, by norm_num⟩ <;>
    norm_num [readPortfolios, dashboardPortfolios, refState0,
      refUpdateAccountValue, alistGet, alistSet, Portfolio.create,
      Portfolio.calculateTotals, sumMarketValue, sumDayPnl, sumTotalPnl]

/-- C9 amended.  `get_dashboard_data` copies only the top-level portfolios
dict: the snapshot holds the same `Portfolio` references as the live map, so
an in-place mutation (`update_account_value`) is visible through a previously
returned snapshot and the snapshot's reads coincide with the live map's;
only the dict itself is independent — removing an account afterwards does not
touch the heap the old snapshot dereferences. -/
theorem snapshot_shares_references_amended (m : RefState) (a : String) (v : ℚ)
    (r : ℕ) (pf : Portfolio) (h1 : alistGet m.portfolios a = some r)
    (h2 : alistGet m.heap r = some pf) :
    (refUpdateAccountValue m a "CashBalance" v).portfolios = m.portfolios ∧
    alistGet (refUpdateAccountValue m a "CashBalance" v).heap r =
      some ({ pf with cash_balance := v }).calculateTotals ∧
    readPortfolios (dashboardPortfolios m)
        (refUpdateAccountValue m a "CashBalance" v).heap =
      readPortfolios
        (dashboardPortfolios (refUpdateAccountValue m a "CashBalance" v))
        (refUpdateAccountValue m a "CashBalance" v).heap ∧
    (refRemoveAccount m a).heap = m.heap := by
  have hupd : refUpdateAccountValue m a "CashBalance" v =
      { m with heap := alistSet m.heap r ({ pf with cash_balance := v }).calculateTotals } := by
    unfold refUpdateAccountValue
    rw [h1]
    dsimp only
    rw [h2]
    norm_num
  refine ⟨?_, ?_, ?_, rfl⟩
  · rw [hupd]
  · rw [hupd]
    exact alistGet_alistSet_self _ _ _
  · rw [hupd]
    rfl

/-- Witness for C9 amended at the concrete one-account manager. -/
theorem snapshot_shares_references_amended_witness :
    (refUpdateAccountValue refState0 "ACC1" "CashBalance" 500).portfolios =
      refState0.portfolios ∧
    alistGet (refUpdateAccountValue refState0 "ACC1" "CashBalance" 500).heap 0 =
      some ({ Portfolio.create "ACC1" .individualTaxable with
        cash_balance := 500 }).calculateTotals := by
  obtain ⟨hp, hh, -, -⟩ := snapshot_shares_references_amended refState0 "ACC1" 500 0
    (Portfolio.create "ACC1" .individualTaxable)
    (by norm_num [refState0, alistGet]) (by norm_num [refState0, alistGet])
  exact ⟨hp, hh⟩

theorem createPosition_of_not_fut (aid : String) (t : AccountType) (c : Contract)
    (pd : PositionData) (md : List (String × ℚ)) (hsec : ¬ c.secType = "FUT") :
    ∃ pos, createPositionFromContract aid t c pd md = some pos := by
  unfold createPositionFromContract
  rw [if_neg hsec]
  exact ⟨_, rfl⟩

theorem updateAccountValue_of_absent (s : DMState) (a k : String) (v : ℚ)
    (cur : String) (h : alistGet s.portfolios a = none) :
    updateAccountValue s a k v cur =
      { s with accountData := setAccountData s.accountData a k v } := by
  unfold updateAccountValue
  dsimp only
  rw [h]

/-- C10.  An account-value update for an account with no portfolio leaves the
portfolios map entirely unchanged and records the value only in the separate
`account_data` map; consequently a cash balance delivered before the
account's first position delta is never reflected in that account's
portfolio — the portfolio later created by the first position delta starts
with `cash_balance = 0`. -/
theorem account_value_unknown_account_frame (s : DMState) (a k : String) (v : ℚ)
    (cur : String) (h : alistGet s.portfolios a = none) :
    (updateAccountValue s a k v cur).portfolios = s.portfolios ∧
    (∃ mkeys, alistGet (updateAccountValue s a k v cur).accountData a = some mkeys ∧
      alistGet mkeys k = some v) ∧
    (∀ pd : PositionData, ¬ pd.contract.secType = "FUT" → ¬ pd.position = 0 →
      ∃ pf, alistGet (updatePosition (updateAccountValue s a "CashBalance" v cur) a
          pd).portfolios a = some pf ∧ pf.cash_balance = 0) := by
  refine ⟨?_, ?_, ?_⟩
  · rw [updateAccountValue_of_absent s a k v cur h]
  · rw [updateAccountValue_of_absent s a k v cur h]
    refine ⟨alistSet (match alistGet s.accountData a with
      | some m => m | none => []) k v, ?_, ?_⟩
    · exact alistGet_alistSet_self _ _ _
    · exact alistGet_alistSet_self _ _ _
  · intro pd hsec hq0
    rw [updateAccountValue_of_absent s a "CashBalance" v cur h]
    obtain ⟨pos, hpos⟩ :=
      createPosition_of_not_fut a (classifyAccount a) pd.contract pd s.marketData hsec
    unfold updatePosition
    rw [if_neg hq0]
    dsimp only
    rw [hpos, h]
    exact ⟨_, alistGet_alistSet_self _ _ _, rfl⟩

/-- Witness for C10: a 500 cash balance for unseen `ACC1` leaves the (empty)
portfolios map unchanged, and the portfolio created by the subsequent AAPL
delta has `cash_balance = 0`. -/
theorem account_value_unknown_account_frame_witness :
    (updateAccountValue initState "ACC1" "CashBalance" 500 "USD").portfolios =
      initState.portfolios ∧
    (∃ pf, alistGet (updatePosition (updateAccountValue initState "ACC1"
        "CashBalance" 500 "USD") "ACC1" aaplOpenDelta).portfolios "ACC1" =
      some pf ∧ pf.cash_balance = 0) := by
  obtain ⟨h1, -, h3⟩ := account_value_unknown_account_frame initState "ACC1"
    "CashBalance" 500 "USD" (by norm_num [initState, alistGet])
  exact ⟨h1, h3 aaplOpenDelta (by decide) (by norm_num [aaplOpenDelta])⟩

end QT
